import Mathlib

/-!
Shallow embedding of the crawler core of `src/generators/prd.ts`
(route discovery, component-tree extraction, navigation retry loop,
style extraction, Chrome-path resolution, crawl orchestration), with
theorems settling the specification claims about it.

DOM conventions mirrored from the browser environment: an element's
`tagName` is the canonical upper-case form of its tag (captured by the
predicate `canonicalTag`); an anchor's `href` property is the already
resolved absolute URL, so documents carry the resolved strings.
-/

/-- A JavaScript exception value as far as `navigateWithRetry` inspects it:
whether it is an `Error` instance and its `message`. -/
structure JSError where
  isError : Bool
  message : String
  deriving Repr

/-- Does `sub` occur as a contiguous block of `l`? -/
def includesAux (sub : List Char) : List Char → Bool
  | [] => sub.isEmpty
  | c :: rest => sub.isPrefixOf (c :: rest) || includesAux sub rest

/-- `String.includes` of JavaScript: `s.includes(sub)` is the substring
test, modelled on the character lists. -/
def strIncludes (s sub : String) : Bool :=
  includesAux sub.data s.data

/-- The `err instanceof Error && err.message.includes("timeout")` test of
`navigateWithRetry`. -/
def isTimeoutErr (e : JSError) : Bool :=
  e.isError && strIncludes e.message "timeout"

/-- Constants from `prd.ts`. -/
def NAV_RETRIES : Nat := 2

/-- Outcomes of the individual `page.goto` calls: for each attempt index,
`none` means the goto resolved, `some e` means it rejected with `e`.
`strict` is the `networkidle2` goto, `lenient` the `domcontentloaded` one. -/
structure NavEnv where
  strict : Nat → Option JSError
  lenient : Nat → Option JSError

/-- The retry loop of `navigateWithRetry` (prd.ts lines 790-811), from the
iteration with index `attempt` on.  Also counts the outer-loop iterations
executed.  The strict goto is tried first; on a non-timeout error, or on any
error in the final iteration, the error is thrown; otherwise the lenient goto
is tried, any error of it being swallowed before the loop continues. -/
def navLoop (env : NavEnv) (attempt : Nat) : Except JSError Unit × Nat :=
  if attempt ≤ NAV_RETRIES then
    match env.strict attempt with
    | none => (Except.ok (), 1)
    | some err =>
      if !isTimeoutErr err || attempt == NAV_RETRIES then
        (Except.error err, 1)
      else
        match env.lenient attempt with
        | none => (Except.ok (), 1)
        | some _ =>
          let r := navLoop env (attempt + 1)
          (r.1, r.2 + 1)
  else (Except.ok (), 0)
termination_by NAV_RETRIES + 1 - attempt
decreasing_by omega

/-- `navigateWithRetry(page, url)`: result together with the number of
outer-loop iterations performed. -/
def navigateWithRetry (env : NavEnv) : Except JSError Unit × Nat :=
  navLoop env 0


/-- `s.toLowerCase()` of JavaScript, on the character list. -/
def strToLower (s : String) : String :=
  ⟨s.data.map Char.toLower⟩

/-- `s.toUpperCase()` of JavaScript, on the character list. -/
def strToUpper (s : String) : String :=
  ⟨s.data.map Char.toUpper⟩

/-- `s.slice(0, n)` of JavaScript: the first `n` characters. -/
def strTake (s : String) (n : Nat) : String :=
  ⟨s.data.take n⟩

/-- `s.trim()` of JavaScript: strip leading and trailing whitespace. -/
def strTrim (s : String) : String :=
  ⟨((s.data.dropWhile Char.isWhitespace).reverse.dropWhile
      Char.isWhitespace).reverse⟩

/-- `s.startsWith(p)` of JavaScript. -/
def strStartsWith (s p : String) : Bool :=
  p.data.isPrefixOf s.data

/-- `s.includes(c)` for a single-character needle, as in
`href.includes("#")`. -/
def strContainsChar (s : String) (c : Char) : Bool :=
  s.data.any fun d => d == c

/-- A DOM node as `extractComponent` observes it: an element carries its
`tagName` (canonically upper-case in the browser), its attribute list in
order, its `classList`, and its `childNodes` in document order; a text node
carries its `textContent`. -/
inductive DomNode where
  | elem (tagName : String) (attributes : List (String × String))
      (classList : List String) (childNodes : List DomNode)
  | text (textContent : String)
  deriving Repr

/-- The attribute allow-list of `extractComponent` (prd.ts lines 634-647). -/
def keptAttr (name : String) : Bool :=
  strStartsWith name "data-" || name == "role" || name == "aria-label" ||
  name == "placeholder" || name == "type" || name == "href" ||
  name == "src" || name == "alt"

/-- The serializable component description produced by `extractComponent`
(the `ComponentData` / `ScrapedComponent` shape). -/
structure ComponentData where
  tag : String
  classes : List String
  text : String
  attributes : List (String × String)
  children : List ComponentData
  deriving Repr

/-- The filter at the top of `extractComponent` (prd.ts lines 625-631). -/
def bannedTag (tagName : String) : Bool :=
  tagName == "SCRIPT" || tagName == "STYLE" || tagName == "NOSCRIPT"

/-- The direct-text accumulation of `extractComponent` (prd.ts lines
656-661): concatenate the trimmed `textContent` of the text nodes among
`childNodes`, in order, with no separator. -/
def directText (childNodes : List DomNode) : String :=
  String.join (childNodes.filterMap fun n =>
    match n with
    | DomNode.text t => some (strTrim t)
    | DomNode.elem _ _ _ _ => none)

mutual

/-- `extractComponent(el)` of prd.ts lines 624-670: `none` models the
`null` return for script/style/noscript elements (and is also taken on
text nodes, which the source never passes in, `el.children` holding only
elements). -/
def extractComponent : DomNode → Option ComponentData
  | DomNode.text _ => none
  | DomNode.elem tagName attributes classList childNodes =>
    if bannedTag tagName then none
    else
      some
        { tag := strToLower tagName
          classes := classList
          text := strTake (directText childNodes) 200
          attributes := attributes.filter fun p => keptAttr p.1
          children := extractChildren childNodes }

/-- The `for (const child of el.children)` loop: extract each element
child, keeping only the non-null results. -/
def extractChildren : List DomNode → List ComponentData
  | [] => []
  | n :: rest =>
    match extractComponent n with
    | some c => c :: extractChildren rest
    | none => extractChildren rest

end


/-- `[...new Set(l)]` of JavaScript: keep the first occurrence of each
string, in order.  `seen` accumulates the strings already emitted. -/
def dedupAux : List String → List String → List String
  | [], _ => []
  | x :: xs, seen =>
    if x ∈ seen then dedupAux xs seen
    else x :: dedupAux xs (x :: seen)

/-- `[...new Set(l)]` of JavaScript. -/
def jsSetDedup (l : List String) : List String :=
  dedupAux l []

/-- The filter of the `page.evaluate` body of `discoverRoutes` (prd.ts
lines 713-723): an anchor's resolved `href` is kept when it starts with
the origin string and contains no `#`. -/
def routeKeep (origin href : String) : Bool :=
  strStartsWith href origin && !strContainsChar href '#'

/-- `discoverRoutes` (prd.ts lines 710-726) given the resolved `href`
strings of the document's `a[href]` anchors in document order, and the
origin string computed from the base URL. -/
def discoverRoutesCore (anchorHrefs : List String) (origin : String) :
    List String :=
  jsSetDedup (anchorHrefs.filter fun href => routeKeep origin href)


/-- A CSS rule as `extractGlobalStyles` observes it: whether it is a
`CSSStyleRule`, its `selectorText`, and its `cssText`. -/
structure StyleRule where
  isStyleRule : Bool
  selectorText : String
  cssText : String
  deriving Repr, DecidableEq

/-- A stylesheet: `accessThrows` models a cross-origin sheet whose
`cssRules` getter throws; otherwise `cssRules` lists its rules in order. -/
structure StyleSheet where
  accessThrows : Bool
  cssRules : List StyleRule
  deriving Repr, DecidableEq

/-- The rule filter of `extractGlobalStyles` (prd.ts lines 768-773). -/
def styleRuleKeep (rule : StyleRule) : Bool :=
  rule.isStyleRule &&
    (rule.selectorText == ":root" ||
      strStartsWith rule.selectorText "body" ||
      strStartsWith rule.selectorText "html")

/-- The inner `for (const rule of sheet.cssRules)` with its surrounding
`try`/`catch` (prd.ts lines 766-779): a throwing sheet contributes
nothing. -/
def sheetStyles (sheet : StyleSheet) : List String :=
  if sheet.accessThrows then []
  else (sheet.cssRules.filter styleRuleKeep).map fun r => r.cssText

/-- `extractGlobalStyles` (prd.ts lines 762-783): kept rule texts of every
sheet, in stylesheet order then rule order, joined by newlines. -/
def extractGlobalStyles (sheets : List StyleSheet) : String :=
  String.intercalate "\n" (sheets.flatMap sheetStyles)


/-- The fixed candidate list of `findChromePath` (prd.ts lines 555-562). -/
def chromeCandidates : List String :=
  ["/usr/bin/google-chrome",
   "/usr/bin/google-chrome-stable",
   "/usr/bin/chromium",
   "/usr/bin/chromium-browser",
   "/Applications/Google Chrome.app/Contents/MacOS/Google Chrome",
   "C:\\Program Files\\Google\\Chrome\\Application\\chrome.exe"]

/-- `findChromePath` (prd.ts lines 552-565).  `chromePathEnv` is
`process.env.CHROME_PATH` (`none` when unset); the JavaScript truthiness
test makes an empty string behave as unset.  The function consults
nothing else — in particular no filesystem. -/
def findChromePath (chromePathEnv : Option String) : String :=
  match chromePathEnv with
  | some p => if p != "" then p else chromeCandidates.getD 0 ""
  | none => chromeCandidates.getD 0 ""


mutual

/-- Pre-order search for the first element satisfying `p`
(`document.querySelector` over the modelled tree). -/
def findElem (p : DomNode → Bool) : DomNode → Option DomNode
  | DomNode.text _ => none
  | DomNode.elem tagName attributes classList childNodes =>
    if p (DomNode.elem tagName attributes classList childNodes) then
      some (DomNode.elem tagName attributes classList childNodes)
    else findElemList p childNodes

/-- `findElem` over a child list, first match wins. -/
def findElemList (p : DomNode → Bool) : List DomNode → Option DomNode
  | [] => none
  | c :: rest =>
    match findElem p c with
    | some r => some r
    | none => findElemList p rest

end

/-- `getAttribute(name)`. -/
def getAttr : DomNode → String → Option String
  | DomNode.text _, _ => none
  | DomNode.elem _ attributes _ _, name =>
    (attributes.find? fun p => p.1 == name).map Prod.snd

mutual

/-- `textContent` of a node: every descendant text node concatenated in
document order. -/
def textContentOf : DomNode → String
  | DomNode.text t => t
  | DomNode.elem _ _ _ childNodes => textContentList childNodes

/-- `textContentOf` concatenated over a child list. -/
def textContentList : List DomNode → String
  | [] => ""
  | c :: rest => textContentOf c ++ textContentList rest

end

mutual

/-- A node itself (when it is an `<a>`) followed by the anchors among its
descendants, in document order. -/
def anchorsSelf : DomNode → List DomNode
  | DomNode.text _ => []
  | DomNode.elem tagName attributes classList childNodes =>
    (if tagName == "A" then
      [DomNode.elem tagName attributes classList childNodes]
     else []) ++ anchorsList childNodes

/-- `anchorsSelf` concatenated over a child list. -/
def anchorsList : List DomNode → List DomNode
  | [] => []
  | c :: rest => anchorsSelf c ++ anchorsList rest

end

/-- `container.querySelectorAll("a")`: anchor descendants in document
order. -/
def anchorsIn : DomNode → List DomNode
  | DomNode.text _ => []
  | DomNode.elem _ _ _ childNodes => anchorsList childNodes

/-- A flattened navigation menu entry (`NavigationItem`); the extraction
depth keeps `children` empty. -/
structure NavItem where
  label : String
  href : String
  children : List NavItem
  deriving Repr

/-- `document.querySelector("nav") ?? document.querySelector("[role='navigation']")`
over the document's body tree. -/
def findNavLandmark (body : Option DomNode) : Option DomNode :=
  match body with
  | none => none
  | some b =>
    match findElem (fun n =>
        match n with
        | DomNode.elem tagName _ _ _ => tagName == "NAV"
        | DomNode.text _ => false) b with
    | some n => some n
    | none =>
      findElem (fun n => getAttr n "role" == some "navigation") b

/-- `extractNavigation` (prd.ts lines 728-760): locate the landmark, then
flatten its anchor descendants into menu items. -/
def extractNavigation (body : Option DomNode) : List NavItem :=
  match findNavLandmark body with
  | none => []
  | some nav =>
    (anchorsIn nav).map fun a =>
      { label := strTrim (textContentOf a)
        href := (getAttr a "href").getD ""
        children := [] }

/-- A rendered document as the extraction code observes it: title,
serialized markup, the screenshot the engine returns, the body element,
`document.body?.innerText`, the resolved `href` strings of its `a[href]`
anchors in document order, and its stylesheets. -/
structure Document where
  title : String
  content : String
  screenshot : String
  body : Option DomNode
  innerText : Option String
  anchorHrefs : List String
  styleSheets : List StyleSheet

/-- The `body.children` loop at the bottom of the `page.evaluate` block
(prd.ts lines 680-688): `[]` when the document has no body. -/
def extractTopLevel (body : Option DomNode) : List ComponentData :=
  match body with
  | none => []
  | some (DomNode.text _) => []
  | some (DomNode.elem _ _ _ childNodes) => extractChildren childNodes

/-- One page snapshot (`ScrapedPage`). -/
structure ScrapedPage where
  url : String
  title : String
  html : String
  screenshot : String
  components : List ComponentData
  routes : List String
  textContent : String

/-- The crawl's aggregate result (`ScrapedApp`). -/
structure ScrapedApp where
  baseUrl : String
  pages : List ScrapedPage
  navigation : List NavItem
  globalStyles : String

/-- The browser world a crawl runs against: per-URL goto outcomes for
`navigateWithRetry`, the rendered document served at each URL, a possible
error raised by the in-page extraction at each URL (a rendering-context
crash), and the browser's `new URL(u).origin`. -/
structure CrawlEnv where
  nav : String → NavEnv
  doc : String → Document
  extractErr : String → Option JSError
  origin : String → String

/-- `document.body?.innerText?.slice(0, 10000) ?? ""` (prd.ts line 693). -/
def visibleText (innerText : Option String) : String :=
  match innerText with
  | some t => strTake t 10000
  | none => ""

/-- `scrapePage(page, url)` (prd.ts lines 607-708): re-navigate when the
page's current URL differs from the target, then build the snapshot from
the rendered document; the new current URL is returned alongside.  An
in-page extraction error propagates uncaught. -/
def scrapePage (env : CrawlEnv) (current : Option String) (url : String) :
    Except JSError (ScrapedPage × Option String) :=
  let afterNav : Except JSError Unit :=
    if current == some url then Except.ok ()
    else (navigateWithRetry (env.nav url)).1
  match afterNav with
  | Except.error e => Except.error e
  | Except.ok () =>
    match env.extractErr url with
    | some e => Except.error e
    | none =>
      let d := env.doc url
      Except.ok
        ({ url := url
           title := d.title
           html := d.content
           screenshot := d.screenshot
           components := extractTopLevel d.body
           routes := discoverRoutesCore d.anchorHrefs (env.origin url)
           textContent := visibleText d.innerText }, some url)

/-- The `for (const route of uniqueRoutes)` loop of `scrapeLovableApp`:
scrape each route in order, threading the current URL; the first error
aborts the loop. -/
def crawlPages (env : CrawlEnv) :
    List String → Option String →
      Except JSError (List ScrapedPage × Option String)
  | [], current => Except.ok ([], current)
  | r :: rs, current =>
    match scrapePage env current r with
    | Except.error e => Except.error e
    | Except.ok (p, cur) =>
      match crawlPages env rs cur with
      | Except.error e => Except.error e
      | Except.ok (ps, cur2) => Except.ok (p :: ps, cur2)

/-- The frontier of a crawl: `[...new Set([url, ...routes])]` where
`routes` are the routes discovered on the entry page (prd.ts lines
583-584). -/
def uniqueRoutesOf (env : CrawlEnv) (url : String) : List String :=
  jsSetDedup
    (url :: discoverRoutesCore (env.doc url).anchorHrefs (env.origin url))

/-- `scrapeLovableApp(url)` (prd.ts lines 567-605).  The second component
records whether `browser.close()` ran: the `try`/`finally` makes it run on
every exit path after the launch, so it is `true` by construction — the
theorem about it verifies that the embedding of the source indeed closes
unconditionally. -/
def scrapeLovableApp (env : CrawlEnv) (url : String) :
    Except JSError ScrapedApp × Bool :=
  let result : Except JSError ScrapedApp :=
    match (navigateWithRetry (env.nav url)).1 with
    | Except.error e => Except.error e
    | Except.ok () =>
      match crawlPages env (uniqueRoutesOf env url) (some url) with
      | Except.error e => Except.error e
      | Except.ok (pages, cur) =>
        let finalDoc := env.doc (cur.getD url)
        Except.ok
          { baseUrl := url
            pages := pages
            navigation := extractNavigation finalDoc.body
            globalStyles := extractGlobalStyles finalDoc.styleSheets }
  (result, true)


/-- Modelled from the spec: "the deduplicated list (exact string equality,
first-occurrence order)" — keep each string's first occurrence. -/
def dedupSpec : List String → List String
  | [] => []
  | x :: xs => x :: dedupSpec (xs.filter fun y => y != x)
termination_by l => l.length
decreasing_by
  simp only [List.length_cons]
  exact Nat.lt_succ_of_le (List.length_filter_le _ _)

theorem mem_dedupSpec {x : String} {l : List String} :
    x ∈ dedupSpec l ↔ x ∈ l := by
  induction l using dedupSpec.induct with
  | case1 => simp [dedupSpec]
  | case2 y ys ih =>
    rw [dedupSpec]
    simp only [List.mem_cons, ih, List.mem_filter, bne_iff_ne]
    by_cases hxy : x = y <;> simp [hxy]

theorem dedupSpec_nodup (l : List String) : (dedupSpec l).Nodup := by
  induction l using dedupSpec.induct with
  | case1 => simp [dedupSpec]
  | case2 y ys ih =>
    rw [dedupSpec]
    refine List.nodup_cons.2 ⟨fun hmem => ?_, ih⟩
    have := List.mem_filter.1 (mem_dedupSpec.1 hmem)
    simp at this

theorem dedupAux_eq_dedupSpec (l : List String) (seen : List String) :
    dedupAux l seen = dedupSpec (l.filter fun x => decide (x ∉ seen)) := by
  induction l generalizing seen with
  | nil => simp [dedupAux, dedupSpec]
  | cons x xs ih =>
    by_cases hx : x ∈ seen
    · simp [dedupAux, hx, ih, List.filter_cons]
    · rw [dedupAux]
      simp only [hx, if_false, List.filter_cons]
      rw [if_pos (by simp [hx])]
      rw [dedupSpec.eq_def]
      simp only [List.filter_filter]
      rw [ih]
      congr 2
      apply List.filter_congr
      intro a _
      by_cases hax : a = x <;> simp [hax, List.mem_cons, hx]

theorem jsSetDedup_eq_dedupSpec (l : List String) :
    jsSetDedup l = dedupSpec l := by
  rw [jsSetDedup, dedupAux_eq_dedupSpec]
  congr 1
  exact List.filter_eq_self.2 fun a _ => by simp

theorem mem_jsSetDedup {x : String} {l : List String} :
    x ∈ jsSetDedup l ↔ x ∈ l := by
  rw [jsSetDedup_eq_dedupSpec]; exact mem_dedupSpec

theorem jsSetDedup_nodup (l : List String) : (jsSetDedup l).Nodup := by
  rw [jsSetDedup_eq_dedupSpec]; exact dedupSpec_nodup l

/-- **C4.** For every loaded page (given by its anchors' resolved `href`
strings) and origin string, `discoverRoutes` returns exactly the
deduplicated list (exact string equality, first-occurrence order) of the
anchor targets whose resolved URL starts textually with the origin string
and contain no `#`; the output never contains duplicates or a string with
a fragment marker, and admission is textual prefix matching, so a
differently-ported URL or a differently-cased path sharing the origin as
a string prefix is admitted. -/
theorem claim_C4 (anchorHrefs : List String) (origin : String) :
    discoverRoutesCore anchorHrefs origin =
      dedupSpec (anchorHrefs.filter fun href => routeKeep origin href)
    ∧ (discoverRoutesCore anchorHrefs origin).Nodup
    ∧ (∀ s ∈ discoverRoutesCore anchorHrefs origin,
        s ∈ anchorHrefs ∧ strStartsWith s origin = true ∧
          strContainsChar s '#' = false)
    ∧ discoverRoutesCore
        ["https://a.com:8080/p", "https://a.com/ABOUT", "https://A.com/q",
         "https://a.com/x#top"] "https://a.com" =
        ["https://a.com:8080/p", "https://a.com/ABOUT"] := by
  refine ⟨jsSetDedup_eq_dedupSpec _, jsSetDedup_nodup _, fun s hs => ?_, by decide⟩
  have hmem := mem_jsSetDedup.1 hs
  have h := List.mem_filter.1 hmem
  have hk := h.2
  rw [routeKeep, Bool.and_eq_true, Bool.not_eq_true'] at hk
  exact ⟨h.1, hk.1, hk.2⟩

/-- Witness for C4 at a concrete page: the differently-ported admitted
route is in the output and satisfies the guarantees. -/
theorem claim_C4_witness :
    ("https://a.com:8080/p" ∈
      discoverRoutesCore
        ["https://a.com:8080/p", "https://a.com/ABOUT", "https://A.com/q",
         "https://a.com/x#top"] "https://a.com") ∧
    strStartsWith "https://a.com:8080/p" "https://a.com" = true ∧
    strContainsChar "https://a.com:8080/p" '#' = false := by
  refine ⟨by decide, ?_, ?_⟩
  · exact ((claim_C4
      ["https://a.com:8080/p", "https://a.com/ABOUT", "https://A.com/q",
       "https://a.com/x#top"] "https://a.com").2.2.1
      "https://a.com:8080/p" (by decide)).2.1
  · exact ((claim_C4
      ["https://a.com:8080/p", "https://a.com/ABOUT", "https://A.com/q",
       "https://a.com/x#top"] "https://a.com").2.2.1
      "https://a.com:8080/p" (by decide)).2.2

theorem flatMap_sheetStyles (sheets : List StyleSheet) :
    sheets.flatMap sheetStyles =
      (sheets.filter fun s => !s.accessThrows).flatMap
        fun s => (s.cssRules.filter styleRuleKeep).map StyleRule.cssText := by
  induction sheets with
  | nil => simp
  | cons s ss ih =>
    cases h : s.accessThrows <;>
      simp [sheetStyles, List.filter_cons, h, ih]

/-- **C8.** `extractGlobalStyles` returns the newline-joined text of
exactly the style rules whose selector is `:root` or begins with
`body`/`html`, in stylesheet order then rule order; a stylesheet that
throws on rule access is skipped silently and never aborts extraction of
the matching rules of subsequent stylesheets. -/
theorem claim_C8 (sheets : List StyleSheet) :
    extractGlobalStyles sheets =
      String.intercalate "\n"
        ((sheets.filter fun s => !s.accessThrows).flatMap
          fun s => (s.cssRules.filter styleRuleKeep).map StyleRule.cssText)
    ∧ (∀ (pre post : List StyleSheet) (s : StyleSheet),
        s.accessThrows = true →
          extractGlobalStyles (pre ++ s :: post) =
            extractGlobalStyles (pre ++ post))
    ∧ extractGlobalStyles
        [⟨false, [⟨true, ":root", "a"⟩, ⟨false, ":root", "b"⟩]⟩,
         ⟨true, [⟨true, "body", "c"⟩]⟩,
         ⟨false, [⟨true, "html, body", "d"⟩, ⟨true, ".x", "e"⟩]⟩] =
        "a\nd" := by
  refine ⟨by rw [extractGlobalStyles, flatMap_sheetStyles], ?_, by decide⟩
  intro pre post s hs
  rw [extractGlobalStyles, extractGlobalStyles]
  congr 1
  simp [sheetStyles, hs]

/-- Witness for C8: dropping a concrete throwing sheet between two
accessible sheets leaves the extraction of the others intact. -/
theorem claim_C8_witness :
    (StyleSheet.mk true [⟨true, "body", "c"⟩]).accessThrows = true ∧
    extractGlobalStyles
      [⟨false, [⟨true, ":root", "a"⟩]⟩, ⟨true, [⟨true, "body", "c"⟩]⟩,
       ⟨false, [⟨true, "html", "d"⟩]⟩] =
      extractGlobalStyles
        [⟨false, [⟨true, ":root", "a"⟩]⟩, ⟨false, [⟨true, "html", "d"⟩]⟩] :=
  ⟨rfl,
    (claim_C8 []).2.1 [⟨false, [⟨true, ":root", "a"⟩]⟩]
      [⟨false, [⟨true, "html", "d"⟩]⟩] ⟨true, [⟨true, "body", "c"⟩]⟩ rfl⟩

/-- The resolution procedure the claim describes (for comparison with
`findChromePath`): environment override, else the first candidate that
exists on disk, else the first candidate unconditionally. -/
def chromePathClaimed (chromePathEnv : Option String)
    (existsOnDisk : String → Bool) : String :=
  match chromePathEnv with
  | some p =>
    if p != "" then p
    else
      match chromeCandidates.find? existsOnDisk with
      | some c => c
      | none => chromeCandidates.getD 0 ""
  | none =>
    match chromeCandidates.find? existsOnDisk with
    | some c => c
    | none => chromeCandidates.getD 0 ""

/-- **C9, counterexample.** On a disk where only `/usr/bin/chromium`
exists, the claimed resolution picks it, but `findChromePath` — which
never consults the filesystem — still returns the first candidate. -/
theorem claim_C9_counterexample :
    findChromePath none ≠
      chromePathClaimed none (fun p => p == "/usr/bin/chromium") ∧
    findChromePath none = "/usr/bin/google-chrome" ∧
    chromePathClaimed none (fun p => p == "/usr/bin/chromium") =
      "/usr/bin/chromium" := by
  decide

/-- **C9, amended.** The binary location is the environment override when
set to a non-empty string; otherwise the first candidate of the fixed list
is used unconditionally — existence on disk is never consulted. -/
theorem claim_C9_amended :
    (∀ p : String, p ≠ "" → findChromePath (some p) = p) ∧
    findChromePath (some "") = chromeCandidates.getD 0 "" ∧
    findChromePath none = chromeCandidates.getD 0 "" ∧
    chromeCandidates.getD 0 "" = "/usr/bin/google-chrome" := by
  refine ⟨fun p h => ?_, by decide, by decide, by decide⟩
  simp [findChromePath, h]

/-- Witness for C9's amended claim at a concrete override. -/
theorem claim_C9_amended_witness :
    ("/opt/chrome" : String) ≠ "" ∧
    findChromePath (some "/opt/chrome") = "/opt/chrome" :=
  ⟨by decide, claim_C9_amended.1 "/opt/chrome" (by decide)⟩

/-- **C10.** `directText` trims each immediate-child text node
individually and concatenates the pieces with no separator: whitespace
around an intervening child element is dropped, so direct text nodes
`"Hello "` and `" world"` yield `"Helloworld"`. -/
theorem claim_C10 :
    (∀ (a b tn : String) (attrs : List (String × String))
        (cls : List String) (ch : List DomNode),
        directText [DomNode.text a, DomNode.elem tn attrs cls ch,
          DomNode.text b] = strTrim a ++ strTrim b)
    ∧ extractComponent
        (DomNode.elem "DIV" [] []
          [DomNode.text "Hello ", DomNode.elem "B" [] [] [],
           DomNode.text " world"]) =
        some { tag := "div", classes := [], text := "Helloworld",
               attributes := []
               children := [{ tag := "b", classes := [], text := ""
                              attributes := [], children := [] }] } := by
  constructor
  · intro a b tn attrs cls ch
    simp [directText, String.join]
  · simp [extractComponent, extractChildren, directText, bannedTag, keptAttr]
    decide

theorem navLoop_strict_nontimeout (env : NavEnv) (a : Nat) (err : JSError)
    (ha : a ≤ NAV_RETRIES) (h : env.strict a = some err)
    (ht : isTimeoutErr err = false) :
    navLoop env a = (Except.error err, 1) := by
  rw [navLoop.eq_def]
  simp [ha, h, ht]

theorem navLoop_strict_err_last (env : NavEnv) (err : JSError)
    (h : env.strict NAV_RETRIES = some err) :
    navLoop env NAV_RETRIES = (Except.error err, 1) := by
  rw [navLoop.eq_def]
  cases ht : isTimeoutErr err <;> simp [h, ht]

theorem navLoop_lenient_swallows (env : NavEnv) (a : Nat) (err e : JSError)
    (ha : a < NAV_RETRIES) (hs : env.strict a = some err)
    (ht : isTimeoutErr err = true) (hl : env.lenient a = some e) :
    navLoop env a = ((navLoop env (a + 1)).1, (navLoop env (a + 1)).2 + 1) := by
  have hne : (a == NAV_RETRIES) = false := by
    simp [Nat.ne_of_lt ha]
  rw [navLoop.eq_def]
  simp [Nat.le_of_lt ha, hs, ht, hne, hl]

/-- **C1, amended.** A non-timeout error on a strict (`networkidle2`)
attempt propagates immediately, with no further attempt performed; an
error of any kind on a lenient (`domcontentloaded`) fallback attempt is
swallowed and the outer loop retries — contrary to the claim, such an
error does not propagate. -/
theorem claim_C1_amended :
    (∀ (env : NavEnv) (a : Nat) (err : JSError), a ≤ NAV_RETRIES →
        env.strict a = some err → isTimeoutErr err = false →
        navLoop env a = (Except.error err, 1)) ∧
    (∀ (env : NavEnv) (err : JSError),
        env.strict 0 = some err → isTimeoutErr err = false →
        navigateWithRetry env = (Except.error err, 1)) ∧
    (∀ (env : NavEnv) (a : Nat) (err e : JSError), a < NAV_RETRIES →
        env.strict a = some err → isTimeoutErr err = true →
        env.lenient a = some e →
        navLoop env a =
          ((navLoop env (a + 1)).1, (navLoop env (a + 1)).2 + 1)) :=
  ⟨navLoop_strict_nontimeout,
   fun env err h ht =>
     navLoop_strict_nontimeout env 0 err (Nat.zero_le _) h ht,
   navLoop_lenient_swallows⟩

/-- The navigation world refuting C1 as stated: the first strict attempt
times out, every lenient attempt fails with a non-timeout error, and the
second strict attempt succeeds. -/
def navEnvC1 : NavEnv where
  strict := fun a =>
    if a == 0 then some ⟨true, "Navigation timeout of 60000 ms exceeded"⟩
    else none
  lenient := fun _ => some ⟨true, "net::ERR_CONNECTION_REFUSED"⟩

/-- **C1, counterexample.** In `navEnvC1` the lenient attempt fails with a
non-timeout error, yet `navigate` does not propagate it: it performs a
further attempt and returns successfully. -/
theorem claim_C1_counterexample :
    isTimeoutErr ⟨true, "net::ERR_CONNECTION_REFUSED"⟩ = false ∧
    navEnvC1.lenient 0 = some ⟨true, "net::ERR_CONNECTION_REFUSED"⟩ ∧
    navigateWithRetry navEnvC1 = (Except.ok (), 2) := by
  have h1 : isTimeoutErr ⟨true, "Navigation timeout of 60000 ms exceeded"⟩
      = true := by decide
  have h2 : isTimeoutErr ⟨true, "net::ERR_CONNECTION_REFUSED"⟩ = false := by
    decide
  refine ⟨h2, rfl, ?_⟩
  simp [navigateWithRetry, navLoop, navEnvC1, NAV_RETRIES, h1, h2]

/-- Witness for C1's amended claim: a concrete strict-attempt DNS failure
propagates at once. -/
theorem claim_C1_amended_witness :
    isTimeoutErr ⟨true, "net::ERR_NAME_NOT_RESOLVED"⟩ = false ∧
    navigateWithRetry
      { strict := fun _ => some ⟨true, "net::ERR_NAME_NOT_RESOLVED"⟩,
        lenient := fun _ => none } =
      (Except.error ⟨true, "net::ERR_NAME_NOT_RESOLVED"⟩, 1) :=
  ⟨by decide,
   claim_C1_amended.2.1
     { strict := fun _ => some ⟨true, "net::ERR_NAME_NOT_RESOLVED"⟩,
       lenient := fun _ => none }
     ⟨true, "net::ERR_NAME_NOT_RESOLVED"⟩ rfl (by decide)⟩

theorem navLoop_fail_all_aux (env : NavEnv)
    (h : ∀ i, env.strict i ≠ none ∧ env.lenient i ≠ none) :
    ∀ (fuel a : Nat), NAV_RETRIES + 1 - a = fuel → a ≤ NAV_RETRIES →
      ∃ k err, a ≤ k ∧ k ≤ NAV_RETRIES ∧ env.strict k = some err ∧
        navLoop env a = (Except.error err, k + 1 - a) := by
  intro fuel
  induction fuel with
  | zero => intro a hfa ha; omega
  | succ n ih =>
    intro a hfa ha
    obtain ⟨errS, hS⟩ : ∃ e, env.strict a = some e := by
      cases hsa : env.strict a with
      | none => exact absurd hsa (h a).1
      | some e => exact ⟨e, rfl⟩
    cases ht : isTimeoutErr errS with
    | false =>
      refine ⟨a, errS, le_refl _, ha, hS, ?_⟩
      rw [navLoop_strict_nontimeout env a errS ha hS ht]
      congr 1
      omega
    | true =>
      by_cases hEq : a = NAV_RETRIES
      · subst hEq
        refine ⟨NAV_RETRIES, errS, le_refl _, le_refl _, hS, ?_⟩
        rw [navLoop_strict_err_last env errS hS]
        simp [NAV_RETRIES]
      · have haLt : a < NAV_RETRIES := lt_of_le_of_ne ha hEq
        obtain ⟨errL, hL⟩ : ∃ e, env.lenient a = some e := by
          cases hla : env.lenient a with
          | none => exact absurd hla (h a).2
          | some e => exact ⟨e, rfl⟩
        obtain ⟨k, err, hk1, hk2, hke, hkeq⟩ :=
          ih (a + 1) (by omega) (by omega)
        refine ⟨k, err, by omega, hk2, hke, ?_⟩
        rw [navLoop_lenient_swallows env a errS errL haLt hS ht hL, hkeq]
        simp only []
        congr 1
        omega

/-- **C3.** A target whose strict wait times out on every attempt but
whose lenient wait always succeeds is navigated successfully within
`NAV_RETRIES + 1` total attempts; and when no attempt of either kind ever
succeeds, `navigate` raises the error of the last attempt performed
instead of returning normally. -/
theorem claim_C3 :
    (∀ env : NavEnv,
        (∀ i, ∃ e, env.strict i = some e ∧ isTimeoutErr e = true) →
        (∀ i, env.lenient i = none) →
        (navigateWithRetry env).1 = Except.ok () ∧
          (navigateWithRetry env).2 ≤ NAV_RETRIES + 1) ∧
    (∀ env : NavEnv,
        (∀ i, env.strict i ≠ none ∧ env.lenient i ≠ none) →
        ∃ k err, k ≤ NAV_RETRIES ∧ env.strict k = some err ∧
          navigateWithRetry env = (Except.error err, k + 1)) := by
  constructor
  · intro env hs hl
    obtain ⟨e0, he0, ht0⟩ := hs 0
    have h0 : navigateWithRetry env = (Except.ok (), 1) := by
      rw [navigateWithRetry, navLoop.eq_def]
      simp [he0, ht0, hl 0, NAV_RETRIES]
    simp [h0]
  · intro env h
    obtain ⟨k, err, _, hk2, hke, hkeq⟩ :=
      navLoop_fail_all_aux env h (NAV_RETRIES + 1) 0 (by omega) (by omega)
    exact ⟨k, err, hk2, hke, by simpa using hkeq⟩

/-- The all-timeout, lenient-always-succeeds navigation world. -/
def navEnvTimeoutOnly : NavEnv where
  strict := fun _ => some ⟨true, "Navigation timeout of 60000 ms exceeded"⟩
  lenient := fun _ => none

/-- The never-succeeding navigation world. -/
def navEnvNeverOk : NavEnv where
  strict := fun _ => some ⟨true, "Navigation timeout of 60000 ms exceeded"⟩
  lenient := fun _ => some ⟨true, "Navigation timeout of 60000 ms exceeded"⟩

/-- Witness for C3 at the two concrete navigation worlds. -/
theorem claim_C3_witness :
    ((navigateWithRetry navEnvTimeoutOnly).1 = Except.ok () ∧
      (navigateWithRetry navEnvTimeoutOnly).2 ≤ NAV_RETRIES + 1) ∧
    (navigateWithRetry navEnvNeverOk).1 ≠ Except.ok () := by
  constructor
  · exact claim_C3.1 navEnvTimeoutOnly
      (fun i => ⟨⟨true, "Navigation timeout of 60000 ms exceeded"⟩, rfl,
        by decide⟩)
      (fun i => rfl)
  · obtain ⟨k, err, hk, he, heq⟩ := claim_C3.2 navEnvNeverOk
      (fun i => ⟨by simp [navEnvNeverOk], by simp [navEnvNeverOk]⟩)
    simp [heq]

/-- The DOM invariant on element names: for elements of an HTML document
the browser reports `tagName` in its canonical upper-case form, i.e. the
name is fixed by lower-casing then upper-casing. -/
def canonicalTag (t : String) : Bool :=
  t == strToUpper (strToLower t)

mutual

/-- Every element in the tree carries a canonical `tagName`. -/
def canonicalTags : DomNode → Bool
  | DomNode.text _ => true
  | DomNode.elem tn _ _ ch => canonicalTag tn && canonicalTagsList ch

/-- `canonicalTags` over a child list. -/
def canonicalTagsList : List DomNode → Bool
  | [] => true
  | n :: rest => canonicalTags n && canonicalTagsList rest

end

mutual

/-- A component node together with all its descendants, in document
order. -/
def allNodes : ComponentData → List ComponentData
  | ComponentData.mk tag cls text attrs children =>
    ComponentData.mk tag cls text attrs children :: allNodesList children

/-- `allNodes` concatenated over a children list. -/
def allNodesList : List ComponentData → List ComponentData
  | [] => []
  | c :: rest => allNodes c ++ allNodesList rest

end

theorem canonical_not_banned (tn : String) (hc : canonicalTag tn = true)
    (hb : bannedTag tn = false) :
    ¬(strToLower tn = "script" ∨ strToLower tn = "style" ∨
      strToLower tn = "noscript") := by
  rw [canonicalTag] at hc
  have heq : tn = strToUpper (strToLower tn) := eq_of_beq hc
  rintro (h1 | h1 | h1)
  · rw [h1] at heq
    have h2 : tn = "SCRIPT" := heq.trans (by decide)
    subst h2
    exact absurd hb (by decide)
  · rw [h1] at heq
    have h2 : tn = "STYLE" := heq.trans (by decide)
    subst h2
    exact absurd hb (by decide)
  · rw [h1] at heq
    have h2 : tn = "NOSCRIPT" := heq.trans (by decide)
    subst h2
    exact absurd hb (by decide)

theorem no_banned_strong (N : Nat) :
    (∀ n : DomNode, sizeOf n ≤ N → canonicalTags n = true →
      ∀ c, extractComponent n = some c →
        ∀ d ∈ allNodes c,
          ¬(d.tag = "script" ∨ d.tag = "style" ∨ d.tag = "noscript")) ∧
    (∀ l : List DomNode, sizeOf l ≤ N → canonicalTagsList l = true →
      ∀ d ∈ allNodesList (extractChildren l),
        ¬(d.tag = "script" ∨ d.tag = "style" ∨ d.tag = "noscript")) := by
  induction N with
  | zero =>
    constructor
    · intro n hn
      exfalso
      cases n <;> simp_arith at hn
    · intro l hl
      exfalso
      cases l <;> simp_arith at hl
  | succ N ih =>
    constructor
    · intro n hn hcan c he d hd
      cases n with
      | text t => simp [extractComponent] at he
      | elem tn attrs cls ch =>
        rw [canonicalTags, Bool.and_eq_true] at hcan
        rw [extractComponent] at he
        cases hb : bannedTag tn with
        | true => rw [hb] at he; simp at he
        | false =>
          rw [hb] at he
          simp only [Bool.false_eq_true, if_false, Option.some.injEq] at he
          subst he
          rw [allNodes] at hd
          rcases List.mem_cons.1 hd with rfl | hd'
          · exact canonical_not_banned tn hcan.1 hb
          · have hsz : sizeOf ch ≤ N := by
              have := hn
              simp_arith [DomNode.elem.sizeOf_spec] at this
              omega
            exact ih.2 ch hsz hcan.2 d hd'
    · intro l hl hcan d hd
      cases l with
      | nil => simp [extractChildren, allNodesList] at hd
      | cons n rest =>
        rw [canonicalTagsList, Bool.and_eq_true] at hcan
        have hszn : sizeOf n ≤ N := by
          simp_arith [List.cons.sizeOf_spec] at hl
          omega
        have hszr : sizeOf rest ≤ N := by
          simp_arith [List.cons.sizeOf_spec] at hl
          omega
        rw [extractChildren] at hd
        cases hce : extractComponent n with
        | none =>
          rw [hce] at hd
          exact ih.2 rest hszr hcan.2 d hd
        | some c =>
          rw [hce] at hd
          rw [allNodesList] at hd
          rcases List.mem_append.1 hd with hd' | hd'
          · exact ih.1 n hszn hcan.1 c hce d hd'
          · exact ih.2 rest hszr hcan.2 d hd'

/-- **C5.** For every document body whose elements carry canonical
`tagName`s, the extracted component tree contains no node whose tag is
`script`, `style` or `noscript`, at any depth — such elements are pruned
with their whole subtrees at the point of extraction (`extractComponent`
returns `none` for them), so a filtered element is entirely absent from
the tree; the `children` of every returned node are real component nodes
by construction (`Option` results are dropped, never emitted). -/
theorem claim_C5 :
    (∀ body : List DomNode, canonicalTagsList body = true →
      ∀ d ∈ allNodesList (extractChildren body),
        ¬(d.tag = "script" ∨ d.tag = "style" ∨ d.tag = "noscript")) ∧
    (∀ (tn : String) (attrs : List (String × String)) (cls : List String)
        (ch : List DomNode), bannedTag tn = true →
        extractComponent (DomNode.elem tn attrs cls ch) = none) := by
  constructor
  · intro body h
    exact (no_banned_strong (sizeOf body)).2 body (le_refl _) h
  · intro tn attrs cls ch h
    rw [extractComponent, h]
    simp

/-- The concrete body used to witness C5: a `div` with `script` and
`style` children, next to a top-level `noscript`. -/
def bodyC5 : List DomNode :=
  [DomNode.elem "DIV" [] []
    [DomNode.elem "SCRIPT" [] [] [DomNode.text "alert(1)"],
     DomNode.elem "STYLE" [] [] [DomNode.text ".x-rule"]],
   DomNode.elem "NOSCRIPT" [] [] [DomNode.text "enable js"]]

/-- Witness for C5 at `bodyC5`: the canonical-tag hypothesis holds there,
the lone extracted node is the `div`, and it is not a banned tag. -/
theorem claim_C5_witness :
    canonicalTagsList bodyC5 = true ∧
    (ComponentData.mk "div" [] "" [] []) ∈
      allNodesList (extractChildren bodyC5) ∧
    ¬((ComponentData.mk "div" [] "" [] []).tag = "script" ∨
      (ComponentData.mk "div" [] "" [] []).tag = "style" ∨
      (ComponentData.mk "div" [] "" [] []).tag = "noscript") := by
  have hcan : canonicalTagsList bodyC5 = true := by
    simp [bodyC5, canonicalTags, canonicalTagsList, canonicalTag]
    decide
  have hmem : (ComponentData.mk "div" [] "" [] []) ∈
      allNodesList (extractChildren bodyC5) := by
    simp [bodyC5, extractChildren, extractComponent, allNodes, allNodesList,
      bannedTag, keptAttr, directText]
    decide
  exact ⟨hcan, hmem, claim_C5.1 bodyC5 hcan _ hmem⟩

/-- Is this node a DOM text node? -/
def isTextNode : DomNode → Bool
  | DomNode.text _ => true
  | DomNode.elem _ _ _ _ => false

theorem strTake_length (s : String) (n : Nat) :
    (strTake s n).length = min n s.length := by
  rw [strTake, String.length, String.length]
  exact List.length_take _ _

/-- **C6.** `directText` is built only from the text nodes that are
immediate children of the element — an element whose text all lives in
descendant elements yields the empty string — and truncation is a hard
character cutoff: the extracted `text` is the first 200 characters of the
accumulated direct text (exactly 200 when at least 200 were accumulated),
and the page's visible text is cut to exactly 10000 characters when the
body's `innerText` is at least that long. -/
theorem claim_C6 :
    (∀ ch : List DomNode, (∀ n ∈ ch, isTextNode n = false) →
      directText ch = "") ∧
    (∀ (tn : String) (attrs : List (String × String)) (cls : List String)
        (ch : List DomNode) (c : ComponentData),
        extractComponent (DomNode.elem tn attrs cls ch) = some c →
        c.text = strTake (directText ch) 200 ∧ c.text.length ≤ 200) ∧
    (∀ ch : List DomNode, 200 ≤ (directText ch).length →
      (strTake (directText ch) 200).length = 200) ∧
    (∀ t : String, 10000 ≤ t.length →
      (visibleText (some t)).length = 10000) := by
  refine ⟨?_, ?_, ?_, ?_⟩
  · intro ch h
    rw [directText, List.filterMap_eq_nil_iff.2, String.join]
    · rfl
    · intro n hn
      have := h n hn
      cases n with
      | text t => simp [isTextNode] at this
      | elem _ _ _ _ => rfl
  · intro tn attrs cls ch c he
    rw [extractComponent] at he
    cases hb : bannedTag tn with
    | true => rw [hb] at he; simp at he
    | false =>
      rw [hb] at he
      simp only [Bool.false_eq_true, if_false, Option.some.injEq] at he
      subst he
      refine ⟨rfl, ?_⟩
      rw [strTake_length]
      exact min_le_left _ _
  · intro ch h
    rw [strTake_length]
    exact Nat.min_eq_left h
  · intro t h
    rw [visibleText, strTake_length]
    exact Nat.min_eq_left h

/-- A child list whose text all lives inside a nested element. -/
def chNested : List DomNode :=
  [DomNode.elem "SPAN" [] [] [DomNode.text "all text is nested"]]

/-- A child list with 500 characters of direct text. -/
def ch500 : List DomNode :=
  [DomNode.text (String.mk (List.replicate 500 'a'))]

/-- A 50000-character visible text. -/
def longText : String :=
  String.mk (List.replicate 50000 'b')

set_option maxRecDepth 8192 in
/-- Witness for C6 at concrete inputs: nested-only text extracts to the
empty string, 500 characters of direct text truncate to exactly 200, and
50000 characters of visible text truncate to exactly 10000. -/
theorem claim_C6_witness :
    directText chNested = "" ∧
    (strTake (directText ch500) 200).length = 200 ∧
    (visibleText (some longText)).length = 10000 := by
  refine ⟨claim_C6.1 chNested (by decide), claim_C6.2.2.1 ch500 ?_, claim_C6.2.2.2 longText ?_⟩
  · decide
  · have : longText.length = 50000 := by
      rw [longText, String.length]
      exact List.length_replicate _ _
    omega

theorem scrapePage_ok (env : CrawlEnv) (cur : Option String) (url : String)
    (p : ScrapedPage) (cur2 : Option String)
    (h : scrapePage env cur url = Except.ok (p, cur2)) :
    p.url = url ∧ cur2 = some url := by
  rw [scrapePage] at h
  cases hnav : (if cur == some url then Except.ok ()
      else (navigateWithRetry (env.nav url)).1) with
  | error e => rw [hnav] at h; simp at h
  | ok u =>
    rw [hnav] at h
    cases hee : env.extractErr url with
    | some e => rw [hee] at h; simp at h
    | none =>
      rw [hee] at h
      simp only [Except.ok.injEq, Prod.mk.injEq] at h
      exact ⟨by rw [← h.1], h.2.symm⟩

theorem crawlPages_ok_map (env : CrawlEnv) :
    ∀ (routes : List String) (cur : Option String) (ps : List ScrapedPage)
      (cur2 : Option String),
      crawlPages env routes cur = Except.ok (ps, cur2) →
      ps.map ScrapedPage.url = routes := by
  intro routes
  induction routes with
  | nil =>
    intro cur ps cur2 h
    rw [crawlPages] at h
    simp only [Except.ok.injEq, Prod.mk.injEq] at h
    rw [← h.1]
    rfl
  | cons r rs ih =>
    intro cur ps cur2 h
    rw [crawlPages] at h
    cases hp : scrapePage env cur r with
    | error e => rw [hp] at h; simp at h
    | ok pc =>
      obtain ⟨p, pcur⟩ := pc
      rw [hp] at h
      simp only at h
      cases hrest : crawlPages env rs pcur with
      | error e => rw [hrest] at h; simp at h
      | ok psc =>
        obtain ⟨ps', cur2'⟩ := psc
        rw [hrest] at h
        simp only [Except.ok.injEq, Prod.mk.injEq] at h
        rw [← h.1, List.map_cons]
        rw [(scrapePage_ok env cur r p pcur hp).1, ih pcur ps' cur2' hrest]

theorem scrapeLovableApp_ok (env : CrawlEnv) (url : String)
    (app : ScrapedApp)
    (h : (scrapeLovableApp env url).1 = Except.ok app) :
    app.pages.map ScrapedPage.url = uniqueRoutesOf env url := by
  rw [scrapeLovableApp] at h
  simp only at h
  cases hnav : (navigateWithRetry (env.nav url)).1 with
  | error e => rw [hnav] at h; simp at h
  | ok u =>
    rw [hnav] at h
    cases hcp : crawlPages env (uniqueRoutesOf env url) (some url) with
    | error e => rw [hcp] at h; simp at h
    | ok psc =>
      rw [hcp] at h
      simp only [Except.ok.injEq] at h
      rw [← h]
      exact crawlPages_ok_map env _ _ psc.1 psc.2 (by rw [hcp])

theorem mem_discoverRoutesCore {s : String} (anchorHrefs : List String)
    (origin : String) (h : s ∈ discoverRoutesCore anchorHrefs origin) :
    s ∈ anchorHrefs ∧ strStartsWith s origin = true ∧
      strContainsChar s '#' = false := by
  have hmem := mem_jsSetDedup.1 h
  have hf := List.mem_filter.1 hmem
  have hk := hf.2
  rw [routeKeep, Bool.and_eq_true, Bool.not_eq_true'] at hk
  exact ⟨hf.1, hk.1, hk.2⟩

theorem head_uniqueRoutesOf (env : CrawlEnv) (url : String) :
    (uniqueRoutesOf env url).head? = some url := by
  rw [uniqueRoutesOf, jsSetDedup, dedupAux]
  simp

theorem mem_uniqueRoutesOf {r : String} (env : CrawlEnv) (url : String)
    (h : r ∈ uniqueRoutesOf env url) :
    r = url ∨ (strStartsWith r (env.origin url) = true ∧
      strContainsChar r '#' = false) := by
  rw [uniqueRoutesOf] at h
  rcases List.mem_cons.1 (mem_jsSetDedup.1 h) with rfl | h'
  · exact Or.inl rfl
  · exact Or.inr (mem_discoverRoutesCore _ _ h').2

/-- A rendered document with no content at all. -/
def docEmpty : Document :=
  { title := "", content := "", screenshot := "", body := none,
    innerText := none, anchorHrefs := [], styleSheets := [] }

/-- The entry URL of the concrete end-to-end crawl. -/
def urlC2 : String := "https://a.com/"

/-- The concrete crawl world for C2: the entry page links to two unique
same-origin pages and one off-origin page; the first discovered page
links to a further same-origin page that the entry page does not. -/
def envC2 : CrawlEnv where
  nav := fun _ => { strict := fun _ => none, lenient := fun _ => none }
  doc := fun u =>
    if u == "https://a.com/" then
      { docEmpty with
          anchorHrefs :=
            ["https://a.com/p1", "https://b.com/x", "https://a.com/p2"] }
    else if u == "https://a.com/p1" then
      { docEmpty with anchorHrefs := ["https://a.com/p3"] }
    else docEmpty
  extractErr := fun _ => none
  origin := fun _ => "https://a.com"

/-- **C2.** Route discovery happens in exactly one generation: every
successful crawl's snapshots are exactly the frontier — the deduplicated
union of the entry URL (kept first) and the routes discovered on the
entry page, in document order — in order; a frontier member other than
the entry satisfies the same-origin prefix filter, so an off-origin link
never becomes a frontier member; and in the concrete world `envC2`
(entry linking to two unique same-origin pages and one off-origin page)
the crawl yields exactly 3 snapshots in order
`[entry, discovered-in-document-order...]`, with the route found only on
a subsequent page recorded in that page's snapshot but never crawled. -/
theorem claim_C2 :
    (∀ (env : CrawlEnv) (url : String) (app : ScrapedApp),
        (scrapeLovableApp env url).1 = Except.ok app →
        app.pages.map ScrapedPage.url = uniqueRoutesOf env url) ∧
    (∀ (env : CrawlEnv) (url : String),
        (uniqueRoutesOf env url).head? = some url ∧
        (uniqueRoutesOf env url).Nodup ∧
        ∀ r ∈ uniqueRoutesOf env url, r = url ∨
          (strStartsWith r (env.origin url) = true ∧
            strContainsChar r '#' = false)) ∧
    Except.map (fun app => app.pages.map ScrapedPage.url)
        (scrapeLovableApp envC2 urlC2).1 =
      Except.ok ["https://a.com/", "https://a.com/p1", "https://a.com/p2"] ∧
    Except.map (fun app => app.pages.map ScrapedPage.routes)
        (scrapeLovableApp envC2 urlC2).1 =
      Except.ok [["https://a.com/p1", "https://a.com/p2"],
        ["https://a.com/p3"], []] ∧
    "https://a.com/p3" ∉ uniqueRoutesOf envC2 urlC2 := by
  refine ⟨scrapeLovableApp_ok, ?_, ?_, ?_, ?_⟩
  · intro env url
    exact ⟨head_uniqueRoutesOf env url,
      jsSetDedup_nodup _, fun r hr => mem_uniqueRoutesOf env url hr⟩
  · simp [scrapeLovableApp, navigateWithRetry, navLoop, NAV_RETRIES, envC2,
      urlC2, uniqueRoutesOf, discoverRoutesCore, jsSetDedup, dedupAux,
      routeKeep, strStartsWith, strContainsChar, crawlPages, scrapePage,
      docEmpty, visibleText, extractTopLevel, extractNavigation,
      findNavLandmark, extractGlobalStyles, strTake, Except.map]
  · simp [scrapeLovableApp, navigateWithRetry, navLoop, NAV_RETRIES, envC2,
      urlC2, uniqueRoutesOf, discoverRoutesCore, jsSetDedup, dedupAux,
      routeKeep, strStartsWith, strContainsChar, crawlPages, scrapePage,
      docEmpty, visibleText, extractTopLevel, extractNavigation,
      findNavLandmark, extractGlobalStyles, strTake, Except.map]
  · simp [uniqueRoutesOf, discoverRoutesCore, jsSetDedup, dedupAux, envC2,
      urlC2, routeKeep, strStartsWith, strContainsChar, docEmpty]

/-- The crawl result of `envC2`, written out. -/
def appC2 : ScrapedApp :=
  { baseUrl := "https://a.com/"
    pages :=
      [{ url := "https://a.com/", title := "", html := "", screenshot := ""
         components := [], routes := ["https://a.com/p1", "https://a.com/p2"]
         textContent := "" },
       { url := "https://a.com/p1", title := "", html := "", screenshot := ""
         components := [], routes := ["https://a.com/p3"]
         textContent := "" },
       { url := "https://a.com/p2", title := "", html := "", screenshot := ""
         components := [], routes := [], textContent := "" }]
    navigation := []
    globalStyles := "" }

theorem scrape_envC2_ok : (scrapeLovableApp envC2 urlC2).1 = Except.ok appC2 := by
  simp [scrapeLovableApp, navigateWithRetry, navLoop, NAV_RETRIES, envC2,
    urlC2, uniqueRoutesOf, discoverRoutesCore, jsSetDedup, dedupAux,
    routeKeep, strStartsWith, strContainsChar, crawlPages, scrapePage,
    docEmpty, visibleText, extractTopLevel, extractNavigation,
    findNavLandmark, extractGlobalStyles, strTake, appC2,
    String.intercalate]

/-- Witness for C2: in the concrete world the successful crawl's
snapshot URLs are exactly the frontier. -/
theorem claim_C2_witness :
    (scrapeLovableApp envC2 urlC2).1 = Except.ok appC2 ∧
    appC2.pages.map ScrapedPage.url = uniqueRoutesOf envC2 urlC2 :=
  ⟨scrape_envC2_ok, claim_C2.1 envC2 urlC2 appC2 scrape_envC2_ok⟩

/-- **C7.** On every exit path of the crawl the browser session is
released (`browser.close()` runs in the `finally`), and a caller either
receives a complete result covering every frontier member — one snapshot
per frontier member, in order — or a failure carrying the error, with no
partial result exposed. -/
theorem claim_C7 (env : CrawlEnv) (url : String) :
    (scrapeLovableApp env url).2 = true ∧
    ∀ app, (scrapeLovableApp env url).1 = Except.ok app →
      app.pages.length = (uniqueRoutesOf env url).length ∧
      ∀ r ∈ uniqueRoutesOf env url, ∃ p ∈ app.pages, p.url = r := by
  refine ⟨rfl, fun app h => ?_⟩
  have hmap := scrapeLovableApp_ok env url app h
  constructor
  · rw [← hmap, List.length_map]
  · intro r hr
    rw [← hmap] at hr
    obtain ⟨p, hp, hpu⟩ := List.mem_map.1 hr
    exact ⟨p, hp, hpu⟩

/-- The concrete crawl world where the in-page extraction of the first
discovered page crashes mid-loop. -/
def envC7fail : CrawlEnv :=
  { envC2 with
      extractErr := fun u =>
        if u == "https://a.com/p1" then
          some ⟨true, "Execution context was destroyed"⟩
        else none }

/-- Witness for C7: the session is released both on the successful
concrete crawl and on the one that fails mid-loop, the failing crawl
exposes only the error, and the successful one covers the frontier. -/
theorem claim_C7_witness :
    (scrapeLovableApp envC2 urlC2).2 = true ∧
    (scrapeLovableApp envC7fail urlC2).2 = true ∧
    (scrapeLovableApp envC7fail urlC2).1 =
      Except.error ⟨true, "Execution context was destroyed"⟩ ∧
    appC2.pages.length = (uniqueRoutesOf envC2 urlC2).length := by
  refine ⟨(claim_C7 envC2 urlC2).1, (claim_C7 envC7fail urlC2).1, ?_,
    ((claim_C7 envC2 urlC2).2 appC2 scrape_envC2_ok).1⟩
  simp [scrapeLovableApp, navigateWithRetry, navLoop, NAV_RETRIES, envC2,
    envC7fail, urlC2, uniqueRoutesOf, discoverRoutesCore, jsSetDedup,
    dedupAux, routeKeep, strStartsWith, strContainsChar, crawlPages,
    scrapePage, docEmpty, visibleText, extractTopLevel]
